import Mathlib

/-!
# Verification of the autodiscover peer-discovery core

Shallow embedding of `src/lib.rs`: the wire codec (`to_bytes` / `parse_bytes`),
the transport setup performed by `run` for the Broadcast and Multicast
strategies, and the receive loop `handle_broadcast_message`, together with
theorems checking the specification of the crate against this embedding.

Machine integers are modelled as `Nat` with explicit bounds: a byte is a `Nat`
that the Rust type system would constrain to `< 256`, a port is a `Nat`
constrained to `< 65536`.  The validity predicates below record exactly those
Rust type invariants.
-/

namespace Autodiscover

/-- Rust `std::net::Ipv4Addr`: four octets. -/
structure Ipv4Addr where
  o0 : Nat
  o1 : Nat
  o2 : Nat
  o3 : Nat
deriving DecidableEq

/-- Rust `std::net::Ipv6Addr`: sixteen octets.  The Rust value is `[u8; 16]`;
here the list carries the length-16 invariant in `Ipv6Addr.valid`. -/
structure Ipv6Addr where
  octets : List Nat
deriving DecidableEq

/-- Rust `std::net::IpAddr`. -/
inductive IpAddr where
  | V4 (addr : Ipv4Addr)
  | V6 (addr : Ipv6Addr)
deriving DecidableEq

/-- Rust `std::net::SocketAddrV4`: address and port. -/
structure SocketAddrV4 where
  ip : Ipv4Addr
  port : Nat
deriving DecidableEq

/-- Rust `std::net::SocketAddrV6`: address, port, flow information and scope
identifier.  Rust equality on `SocketAddrV6` compares all four fields. -/
structure SocketAddrV6 where
  ip : Ipv6Addr
  port : Nat
  flowinfo : Nat
  scope_id : Nat
deriving DecidableEq

/-- Rust `std::net::SocketAddr`. -/
inductive SocketAddr where
  | V4 (addr : SocketAddrV4)
  | V6 (addr : SocketAddrV6)
deriving DecidableEq

/-- Rust `u32::from_be_bytes` on four bytes. -/
def u32_from_be_bytes (b0 b1 b2 b3 : Nat) : Nat :=
  b0 * 16777216 + b1 * 65536 + b2 * 256 + b3

/-- Rust `u16::from_be_bytes` on two bytes. -/
def u16_from_be_bytes (b0 b1 : Nat) : Nat :=
  b0 * 256 + b1

/-- Rust `u16::to_be_bytes`: the two big-endian bytes of a `u16`. -/
def u16_to_be_bytes (p : Nat) : List Nat :=
  [p / 256 % 256, p % 256]

/-- Rust `Ipv4Addr::from(v : u32)`: the four big-endian bytes of `v`. -/
def Ipv4Addr.ofU32 (v : Nat) : Ipv4Addr :=
  ⟨v / 16777216 % 256, v / 65536 % 256, v / 256 % 256, v % 256⟩

/-- Rust `Ipv4Addr::octets`. -/
def Ipv4Addr.octets (a : Ipv4Addr) : List Nat :=
  [a.o0, a.o1, a.o2, a.o3]

/-- Rust `SocketAddr::new(ip, port)`: for a V6 address, flowinfo and scope_id
are set to `0`. -/
def SocketAddr.new : IpAddr → Nat → SocketAddr
  | IpAddr.V4 ip, port => SocketAddr.V4 ⟨ip, port⟩
  | IpAddr.V6 ip, port => SocketAddr.V6 ⟨ip, port, 0, 0⟩

/-- The `ip()` accessor of `SocketAddr`. -/
def SocketAddr.ip : SocketAddr → IpAddr
  | SocketAddr.V4 a => IpAddr.V4 a.ip
  | SocketAddr.V6 a => IpAddr.V6 a.ip

/-- The `port()` accessor of `SocketAddr`. -/
def SocketAddr.port : SocketAddr → Nat
  | SocketAddr.V4 a => a.port
  | SocketAddr.V6 a => a.port

/-- The Rust `u8` invariant on the four octet fields. -/
def Ipv4Addr.valid (a : Ipv4Addr) : Prop :=
  a.o0 < 256 ∧ a.o1 < 256 ∧ a.o2 < 256 ∧ a.o3 < 256

/-- The Rust `[u8; 16]` invariant on the octet list. -/
def Ipv6Addr.valid (a : Ipv6Addr) : Prop :=
  a.octets.length = 16 ∧ ∀ b ∈ a.octets, b < 256

/-- The Rust type invariants of a `SocketAddr`: octets are bytes, the port is
a `u16`, flowinfo and scope_id are `u32`. -/
def SocketAddr.valid : SocketAddr → Prop
  | SocketAddr.V4 a => a.ip.valid ∧ a.port < 65536
  | SocketAddr.V6 a => a.ip.valid ∧ a.port < 65536 ∧ a.flowinfo < 4294967296 ∧ a.scope_id < 4294967296

instance (a : Ipv4Addr) : Decidable a.valid := by
  unfold Ipv4Addr.valid; infer_instance

instance (a : Ipv6Addr) : Decidable a.valid := by
  unfold Ipv6Addr.valid; infer_instance

instance (a : SocketAddr) : Decidable a.valid := by
  cases a <;> (unfold SocketAddr.valid; infer_instance)

instance : DecidableEq (Except Unit SocketAddr) := fun x y =>
  match x, y with
  | Except.ok a, Except.ok b =>
      if h : a = b then isTrue (by rw [h])
      else isFalse (by intro hh; cases hh; exact h rfl)
  | Except.error a, Except.error b => isTrue (by cases a; cases b; rfl)
  | Except.ok _, Except.error _ => isFalse (by intro h; cases h)
  | Except.error _, Except.ok _ => isFalse (by intro h; cases h)

/-- Condition under which decoding can restore a V6 address exactly: the two
fields the wire format does not carry are zero.  V4 addresses impose nothing. -/
def SocketAddr.plainV6 : SocketAddr → Prop
  | SocketAddr.V4 _ => True
  | SocketAddr.V6 a => a.flowinfo = 0 ∧ a.scope_id = 0

instance (a : SocketAddr) : Decidable a.plainV6 := by
  cases a <;> (unfold SocketAddr.plainV6; infer_instance)

/-- Embedding of `parse_bytes(len, buff)` from `src/lib.rs`.

The Rust body slices `buff[0..4]`, `buff[4..6]` (length 6 branch) or
`buff[0..16]`, `buff[16..18]` (length 18 branch) and converts the slices with
`try_into().unwrap()`.  A slice `buff[i..j]` panics when `j > buff.len()`, and
the `try_into` on an in-bounds slice of the right width always succeeds, so the
branch for length 6 panics exactly when `buff.len() < 6` and the branch for
length 18 exactly when `buff.len() < 18`.  `none` models that panic; `some`
carries the Rust `Result<SocketAddr, ()>`. -/
def parse_bytes (len : Nat) (buff : List Nat) : Option (Except Unit SocketAddr) :=
  if len = 6 then
    if 6 ≤ buff.length then
      let ip := IpAddr.V4 (Ipv4Addr.ofU32 (u32_from_be_bytes
        (buff.getD 0 0) (buff.getD 1 0) (buff.getD 2 0) (buff.getD 3 0)))
      let port := u16_from_be_bytes (buff.getD 4 0) (buff.getD 5 0)
      some (Except.ok (SocketAddr.new ip port))
    else none
  else if len = 18 then
    if 18 ≤ buff.length then
      let ip := IpAddr.V6 ⟨buff.take 16⟩
      let port := u16_from_be_bytes (buff.getD 16 0) (buff.getD 17 0)
      some (Except.ok (SocketAddr.new ip port))
    else none
  else
    some (Except.error ())

/-- Result of `buff[i..i+src.len()].clone_from_slice(&src)`: the bytes of
`src` overwrite `buff` starting at position `i`. -/
def write_slice (buff : List Nat) (i : Nat) (src : List Nat) : List Nat :=
  buff.take i ++ src ++ buff.drop (i + src.length)

/-- Embedding of `to_bytes(connect_to)` from `src/lib.rs`: a zeroed buffer of
6 (V4) or 18 (V6) bytes whose front is overwritten with the address octets and
whose last two bytes are overwritten with the big-endian port. -/
def to_bytes (connect_to : SocketAddr) : List Nat :=
  match connect_to with
  | SocketAddr.V6 addr =>
      write_slice (write_slice (List.replicate 18 0) 0 addr.ip.octets) 16
        (u16_to_be_bytes addr.port)
  | SocketAddr.V4 addr =>
      write_slice (write_slice (List.replicate 6 0) 0 addr.ip.octets) 4
        (u16_to_be_bytes addr.port)

/-- The `Method` enum of `src/lib.rs`. -/
inductive Method where
  | Broadcast (addr : SocketAddr)
  | Multicast (addr : SocketAddr)

/-- The socket2 domain a socket is created with. -/
inductive Domain where
  | ipv4
  | ipv6
deriving DecidableEq

/-- A multicast group join performed during setup: `join_multicast_v4` with an
interface address, or `join_multicast_v6` with an interface index. -/
inductive JoinOp where
  | v4 (group : Ipv4Addr) (iface : Ipv4Addr)
  | v6 (group : Ipv6Addr) (iface : Nat)
deriving DecidableEq

/-- The observable configuration of one UDP socket opened by `run`. -/
structure SocketConfig where
  domain : Domain
  reuse_address : Bool
  broadcast : Bool
  bind_addr : SocketAddr
  joins : List JoinOp
deriving DecidableEq

/-- One `send_to` call: which socket (index into the setup's socket list),
what payload and to which destination. -/
structure SendOp where
  socket : Nat
  payload : List Nat
  dest : SocketAddr
deriving DecidableEq

/-- Everything `run` does before entering the receive loop: the sockets it
opens in order, the announcement sends it performs, and which socket the
receive loop is handed. -/
structure TransportSetup where
  sockets : List SocketConfig
  sends : List SendOp
  loop_socket : Nat
deriving DecidableEq

/-- The address `":::0"` parses to: the IPv6 wildcard with port 0. -/
def wildcard_v6 : SocketAddr :=
  SocketAddr.V6 ⟨⟨List.replicate 16 0⟩, 0, 0, 0⟩

/-- Embedding of the setup phase of `run(connect_to, method, _)` from
`src/lib.rs`, recording the socket operations of each branch.

Broadcast: one `Domain::ipv4` socket with reuse_address and broadcast set,
bound to the target address `addr` itself; the announcement is sent on that
same socket and the same socket is passed to `handle_broadcast_message`.

Multicast: the receive socket is created with `Domain::ipv6()` whatever the
family of `addr`, reuse_address set, bound to `addr`, and joined to the group
by family (`join_multicast_v4` with interface `0.0.0.0`, or
`join_multicast_v6` with interface index 0); a second, temporary socket bound
to `":::0"` sends the announcement, and the first socket is passed to
`handle_broadcast_message`. -/
def transport_setup (connect_to : SocketAddr) (method : Method) : TransportSetup :=
  match method with
  | Method.Broadcast addr =>
      { sockets := [{ domain := Domain.ipv4, reuse_address := true, broadcast := true,
                      bind_addr := addr, joins := [] }],
        sends := [{ socket := 0, payload := to_bytes connect_to, dest := addr }],
        loop_socket := 0 }
  | Method.Multicast addr =>
      let join : JoinOp :=
        match addr.ip with
        | IpAddr.V4 ip => JoinOp.v4 ip (Ipv4Addr.ofU32 0)
        | IpAddr.V6 ip => JoinOp.v6 ip 0
      { sockets := [{ domain := Domain.ipv6, reuse_address := true, broadcast := false,
                      bind_addr := addr, joins := [join] },
                    { domain := Domain.ipv6, reuse_address := false, broadcast := false,
                      bind_addr := wildcard_v6, joins := [] }],
        sends := [{ socket := 1, payload := to_bytes connect_to, dest := addr }],
        loop_socket := 0 }

/-- What one iteration of the receive loop does after `recv_from` returned
`bytes` received bytes into `buff`. -/
inductive StepResult where
  | dropped (len : Nat)
  | selfEcho
  | dispatched (peer : SocketAddr) (result : Except Nat Nat)
  | panicked

/-- One event the loop can observe at its `recv_from` call: a datagram with
the given payload bytes, or an OS-level receive error (carrying an error
code). -/
inductive RecvEvent where
  | datagram (data : List Nat)
  | ioError (e : Nat)
deriving DecidableEq

/-- How the loop has (or has not) exited after consuming a finite prefix of
events: still blocked in `recv_from`, returned `Err(e)` through `?`, or
panicked. -/
inductive LoopExit where
  | running
  | errored (e : Nat)
  | panicked
deriving DecidableEq

/-- The body of one loop iteration of `handle_broadcast_message` after the
receive: parse the received byte count against the buffer; on decode failure
drop the packet; on decoding the advertised address `my` skip; otherwise call
`TcpStream::connect` (the oracle `connect`) and hand its result to the
callback.  `dispatched s r` records that exactly one connect to `s` was
attempted and the callback was invoked exactly once with outcome `r`. -/
def loop_step (connect : SocketAddr → Except Nat Nat) (my : SocketAddr)
    (bytes : Nat) (buff : List Nat) : StepResult :=
  match parse_bytes bytes buff with
  | none => StepResult.panicked
  | some (Except.error _) => StepResult.dropped bytes
  | some (Except.ok s) =>
      if s = my then StepResult.selfEcho
      else StepResult.dispatched s (connect s)

/-- The receive loop of `handle_broadcast_message`, run over a finite list of
events.  `recv_from(&mut buff)` copies `min (data.length) (buff.length)` bytes
of the datagram into the front of the reused buffer — stale bytes beyond that
prefix survive — and returns the copied count, which is what `parse_bytes`
receives as `len`.  An `ioError` makes the loop return `Err` through the `?`
operator. -/
def loop_go (connect : SocketAddr → Except Nat Nat) (my : SocketAddr)
    (buff : List Nat) : List RecvEvent → List StepResult × LoopExit
  | [] => ([], LoopExit.running)
  | RecvEvent.ioError e :: _ => ([], LoopExit.errored e)
  | RecvEvent.datagram data :: rest =>
      let n := min data.length buff.length
      let buff2 := write_slice buff 0 (data.take n)
      match loop_step connect my n buff2 with
      | StepResult.panicked => ([], LoopExit.panicked)
      | StepResult.dropped l =>
          let p := loop_go connect my buff2 rest
          (StepResult.dropped l :: p.1, p.2)
      | StepResult.selfEcho =>
          let p := loop_go connect my buff2 rest
          (StepResult.selfEcho :: p.1, p.2)
      | StepResult.dispatched s r =>
          let p := loop_go connect my buff2 rest
          (StepResult.dispatched s r :: p.1, p.2)

/-- Embedding of `handle_broadcast_message(socket, my_socket, callback)`:
the loop starts from the freshly allocated buffer `vec![0; 18]`. -/
def handle_broadcast_message (connect : SocketAddr → Except Nat Nat)
    (my : SocketAddr) (events : List RecvEvent) : List StepResult × LoopExit :=
  loop_go connect my (List.replicate 18 0) events

/-- The value `run` returns once the loop phase is reached (setup assumed
successful): `Err(e)` when `handle_broadcast_message` returned `Err(e)`
through `?`; `none` while the loop is still running (it never returns `Ok`
from a finite healthy event prefix, matching the `loop` with no break). -/
def run_result (connect : SocketAddr → Except Nat Nat) (connect_to : SocketAddr)
    (_method : Method) (events : List RecvEvent) : Option (Except Nat Unit) :=
  match (handle_broadcast_message connect connect_to events).2 with
  | LoopExit.errored e => some (Except.error e)
  | _ => none

/-- Example advertised address `10.0.0.5:4000`. -/
def ex_advert : SocketAddr := SocketAddr.V4 ⟨⟨10, 0, 0, 5⟩, 4000⟩

/-- Example local address `10.0.0.9:4001` of a second participant. -/
def ex_my : SocketAddr := SocketAddr.V4 ⟨⟨10, 0, 0, 9⟩, 4001⟩

/-- Example IPv6 address `[::1]:5000` with zero flowinfo and scope. -/
def ex_v6 : SocketAddr :=
  SocketAddr.V6 ⟨⟨[0, 0, 0, 0, 0, 0, 0, 0, 0, 0, 0, 0, 0, 0, 0, 1]⟩, 5000, 0, 0⟩

/-- Example IPv6 socket address with a nonzero scope identifier (as used for
link-local addresses). -/
def ex_scoped : SocketAddr := SocketAddr.V6 ⟨⟨List.replicate 16 0⟩, 0, 0, 1⟩

/-- Example IPv4 multicast group `224.0.0.1:1337`. -/
def ex_group_v4 : SocketAddr := SocketAddr.V4 ⟨⟨224, 0, 0, 1⟩, 1337⟩

/-- Example IPv4 broadcast target `192.168.0.255:1337`. -/
def ex_bcast : SocketAddr := SocketAddr.V4 ⟨⟨192, 168, 0, 255⟩, 1337⟩

/-- Example connect oracle: every TCP connect fails with error code 111
(connection refused). -/
def ex_connect : SocketAddr → Except Nat Nat := fun _ => Except.error 111

/-- Example receive buffer content after a 6-byte datagram announcing
`ex_advert` arrived into the zeroed 18-byte buffer. -/
def ex_buff : List Nat := [10, 0, 0, 5, 15, 160, 0, 0, 0, 0, 0, 0, 0, 0, 0, 0, 0, 0]

/-! ## Helper lemmas about the codec -/

/-- Unfolding of the V4 branch of `to_bytes`. -/
lemma to_bytes_v4 (a : SocketAddrV4) :
    to_bytes (SocketAddr.V4 a)
      = [a.ip.o0, a.ip.o1, a.ip.o2, a.ip.o3, a.port / 256 % 256, a.port % 256] := rfl

/-- Unfolding of the V6 branch of `to_bytes`, given the `[u8; 16]` length
invariant on the octets. -/
lemma to_bytes_v6 (a : SocketAddrV6) (h : a.ip.octets.length = 16) :
    to_bytes (SocketAddr.V6 a)
      = a.ip.octets ++ [a.port / 256 % 256, a.port % 256] := by
  have h1 : write_slice (List.replicate 18 0) 0 a.ip.octets = a.ip.octets ++ [0, 0] := by
    simp [write_slice, h, List.drop_replicate]
  show write_slice (write_slice (List.replicate 18 0) 0 a.ip.octets) 16
      (u16_to_be_bytes a.port) = _
  rw [h1]
  show List.take 16 (a.ip.octets ++ [0, 0]) ++ u16_to_be_bytes a.port ++
      List.drop (16 + (u16_to_be_bytes a.port).length) (a.ip.octets ++ [0, 0]) = _
  rw [List.take_left' h, List.drop_eq_nil_of_le (by simp [h, u16_to_be_bytes])]
  simp [u16_to_be_bytes]

/-- Evaluation of `parse_bytes` on a six-byte buffer. -/
lemma parse_bytes_six (x0 x1 x2 x3 x4 x5 : Nat) :
    parse_bytes 6 [x0, x1, x2, x3, x4, x5]
      = some (Except.ok (SocketAddr.V4
          ⟨Ipv4Addr.ofU32 (u32_from_be_bytes x0 x1 x2 x3), u16_from_be_bytes x4 x5⟩)) := rfl

/-- Evaluation of `parse_bytes 18` on a sixteen-octet block followed by two
port bytes. -/
lemma parse_bytes_eighteen (oc : List Nat) (x0 x1 : Nat) (h : oc.length = 16) :
    parse_bytes 18 (oc ++ [x0, x1])
      = some (Except.ok (SocketAddr.V6 ⟨⟨oc⟩, u16_from_be_bytes x0 x1, 0, 0⟩)) := by
  have hL : (oc ++ [x0, x1]).length = 18 := by simp [h]
  simp [parse_bytes, hL, List.take_left' h, SocketAddr.new,
    List.getElem_append_right (show oc.length ≤ 16 by omega),
    List.getElem_append_right (show oc.length ≤ 17 by omega), h]

/-! ## C1: round-trip of the codec -/

/-- C1 (counterexample): the round trip fails on a valid IPv6 socket address
with a nonzero scope identifier — `parse_bytes` rebuilds the address through
`SocketAddr::new`, which zeroes flowinfo and scope_id, and socket-address
equality compares those fields.  The second conjunct exhibits the decoded
value: the same address with scope_id reset to 0. -/
theorem roundtrip_scoped_counterexample :
    ex_scoped.valid
    ∧ parse_bytes (to_bytes ex_scoped).length (to_bytes ex_scoped) ≠ some (Except.ok ex_scoped)
    ∧ parse_bytes (to_bytes ex_scoped).length (to_bytes ex_scoped)
        = some (Except.ok (SocketAddr.V6 ⟨⟨List.replicate 16 0⟩, 0, 0, 0⟩)) := by
  refine ⟨by decide, by decide, by decide⟩

/-- C1 (amended): for every valid IPv4 socket address `a`, decoding the
encoding of `a` yields `Ok a`; for every valid IPv6 socket address whose
flowinfo and scope identifier are zero, the same holds (an IPv6 address with
nonzero flowinfo or scope decodes to the address with those fields zeroed). -/
theorem roundtrip_decode_encode (a : SocketAddr) (hv : a.valid) (hp : a.plainV6) :
    parse_bytes (to_bytes a).length (to_bytes a) = some (Except.ok a) := by
  cases a with
  | V4 a =>
      obtain ⟨⟨o0, o1, o2, o3⟩, p⟩ := a
      obtain ⟨⟨h0, h1, h2, h3⟩, hport⟩ := hv
      dsimp only at h0 h1 h2 h3 hport
      rw [to_bytes_v4]
      dsimp only
      show parse_bytes 6 _ = _
      rw [parse_bytes_six]
      simp only [Option.some.injEq, Except.ok.injEq, SocketAddr.V4.injEq,
        SocketAddrV4.mk.injEq, Ipv4Addr.ofU32, u32_from_be_bytes, u16_from_be_bytes,
        Ipv4Addr.mk.injEq]
      refine ⟨⟨?_, ?_, ?_, ?_⟩, ?_⟩ <;> omega
  | V6 a =>
      obtain ⟨⟨oc⟩, p, fi, si⟩ := a
      obtain ⟨⟨hlen, _⟩, hport, _, _⟩ := hv
      obtain ⟨hf, hs⟩ := hp
      dsimp only at hlen hport hf hs
      rw [to_bytes_v6 ⟨⟨oc⟩, p, fi, si⟩ hlen]
      dsimp only
      have hL : (oc ++ [p / 256 % 256, p % 256]).length = 18 := by
        simp [hlen]
      rw [hL, parse_bytes_eighteen _ _ _ hlen]
      simp only [Option.some.injEq, Except.ok.injEq, SocketAddr.V6.injEq,
        SocketAddrV6.mk.injEq, Ipv6Addr.mk.injEq, u16_from_be_bytes]
      refine ⟨by simp, by omega, by omega, by omega⟩

/-- C1 (witness): the amended round trip evaluated on `10.0.0.5:4000` and on
`[::1]:5000`. -/
theorem roundtrip_decode_encode_witness :
    parse_bytes (to_bytes ex_advert).length (to_bytes ex_advert) = some (Except.ok ex_advert)
    ∧ parse_bytes (to_bytes ex_v6).length (to_bytes ex_v6) = some (Except.ok ex_v6) :=
  ⟨roundtrip_decode_encode ex_advert (by decide) (by decide),
   roundtrip_decode_encode ex_v6 (by decide) (by decide)⟩

/-! ## C8: layout of the encoder -/

/-- C8: `to_bytes` produces exactly 6 bytes for an IPv4 socket address — the
four address octets followed by the two big-endian port bytes — and exactly
18 bytes for an IPv6 socket address — the sixteen address octets followed by
the two big-endian port bytes. -/
theorem to_bytes_layout :
    (∀ a : SocketAddrV4, (SocketAddr.V4 a).valid →
        to_bytes (SocketAddr.V4 a)
          = [a.ip.o0, a.ip.o1, a.ip.o2, a.ip.o3, a.port / 256, a.port % 256]
        ∧ (to_bytes (SocketAddr.V4 a)).length = 6)
    ∧ (∀ a : SocketAddrV6, (SocketAddr.V6 a).valid →
        to_bytes (SocketAddr.V6 a) = a.ip.octets ++ [a.port / 256, a.port % 256]
        ∧ a.ip.octets.length = 16
        ∧ (to_bytes (SocketAddr.V6 a)).length = 18) := by
  constructor
  · intro a hv
    obtain ⟨_, hport⟩ := hv
    have hmod : a.port / 256 % 256 = a.port / 256 := by omega
    rw [to_bytes_v4, hmod]
    exact ⟨rfl, rfl⟩
  · intro a hv
    obtain ⟨⟨hlen, _⟩, hport, _, _⟩ := hv
    have hmod : a.port / 256 % 256 = a.port / 256 := by omega
    rw [to_bytes_v6 a hlen, hmod]
    exact ⟨rfl, hlen, by simp [hlen]⟩

/-- C8 (witness): the encoder layout evaluated on `10.0.0.5:4000` and on
`[::1]:5000`. -/
theorem to_bytes_layout_witness :
    to_bytes ex_advert = [10, 0, 0, 5, 4000 / 256, 4000 % 256]
    ∧ to_bytes ex_v6
        = [0, 0, 0, 0, 0, 0, 0, 0, 0, 0, 0, 0, 0, 0, 0, 1] ++ [5000 / 256, 5000 % 256] :=
  ⟨(to_bytes_layout.1 ⟨⟨10, 0, 0, 5⟩, 4000⟩ (by decide)).1,
   (to_bytes_layout.2 ⟨⟨[0, 0, 0, 0, 0, 0, 0, 0, 0, 0, 0, 0, 0, 0, 0, 1]⟩, 5000, 0, 0⟩
     (by decide)).1⟩

/-! ## C2, C9, C10: length dispatch, totality, prefix dependence -/

/-- Shared helper: on a buffer of at least 18 bytes (the loop's receive
buffer), `parse_bytes` never panics. -/
lemma parse_bytes_ne_none (len : Nat) (buff : List Nat) (h : 18 ≤ buff.length) :
    parse_bytes len buff ≠ none := by
  rw [parse_bytes]
  by_cases h6 : len = 6
  · simp [h6, show 6 ≤ buff.length by omega]
  · by_cases h18 : len = 18
    · simp [h6, h18, h]
    · simp [h6, h18]

/-- C2: `parse_bytes` returns a successfully decoded socket address only when
`len` is exactly 6 or exactly 18, and returns the malformed-packet error
`Err(())` for every other length (0, 5, 7, 17, 19, ...). -/
theorem parse_bytes_length_dispatch (len : Nat) (buff : List Nat) :
    ((∃ a, parse_bytes len buff = some (Except.ok a)) → len = 6 ∨ len = 18)
    ∧ (len ≠ 6 → len ≠ 18 → parse_bytes len buff = some (Except.error ())) := by
  constructor
  · intro _
    by_cases h6 : len = 6
    · exact Or.inl h6
    · by_cases h18 : len = 18
      · exact Or.inr h18
      · exfalso
        obtain ⟨a, ha⟩ := ‹∃ a, parse_bytes len buff = some (Except.ok a)›
        rw [parse_bytes, if_neg h6, if_neg h18] at ha
        cases ha
  · intro h6 h18
    rw [parse_bytes, if_neg h6, if_neg h18]

/-- C2 (witness): evaluated at the malformed lengths 0 and 5 and at the valid
length 6 on the zeroed receive buffer. -/
theorem parse_bytes_length_dispatch_witness :
    parse_bytes 5 (List.replicate 18 0) = some (Except.error ())
    ∧ parse_bytes 0 (List.replicate 18 0) = some (Except.error ())
    ∧ (6 = 6 ∨ 6 = 18) :=
  ⟨(parse_bytes_length_dispatch 5 (List.replicate 18 0)).2 (by decide) (by decide),
   (parse_bytes_length_dispatch 0 (List.replicate 18 0)).2 (by decide) (by decide),
   (parse_bytes_length_dispatch 6 (List.replicate 18 0)).1
     ⟨SocketAddr.V4 ⟨⟨0, 0, 0, 0⟩, 0⟩, by decide⟩⟩

/-- C9: on any buffer of length at least 18 — the size of the receive buffer
`vec![0; 18]` — `parse_bytes` is total: it never panics (never `none`), the
slice extractions succeed and produce a decoded address for `len = 6` and
`len = 18`, and every other `len` takes the error branch. -/
theorem parse_bytes_total (len : Nat) (buff : List Nat) (h : 18 ≤ buff.length) :
    (parse_bytes len buff).isSome = true
    ∧ (len = 6 ∨ len = 18 → ∃ a, parse_bytes len buff = some (Except.ok a))
    ∧ (len ≠ 6 → len ≠ 18 → parse_bytes len buff = some (Except.error ())) := by
  refine ⟨?_, ?_, ?_⟩
  · cases hp : parse_bytes len buff with
    | none => exact absurd hp (parse_bytes_ne_none len buff h)
    | some v => rfl
  · rintro (rfl | rfl)
    · refine ⟨SocketAddr.new
        (IpAddr.V4 (Ipv4Addr.ofU32 (u32_from_be_bytes
          (buff.getD 0 0) (buff.getD 1 0) (buff.getD 2 0) (buff.getD 3 0))))
        (u16_from_be_bytes (buff.getD 4 0) (buff.getD 5 0)), ?_⟩
      simp [parse_bytes, show 6 ≤ buff.length by omega]
    · refine ⟨SocketAddr.new (IpAddr.V6 ⟨buff.take 16⟩)
        (u16_from_be_bytes (buff.getD 16 0) (buff.getD 17 0)), ?_⟩
      simp [parse_bytes, h]
  · intro h6 h18
    rw [parse_bytes, if_neg h6, if_neg h18]

/-- C9 (witness): totality evaluated on the zeroed 18-byte receive buffer at
lengths 6 and 7. -/
theorem parse_bytes_total_witness :
    (parse_bytes 6 (List.replicate 18 0)).isSome = true
    ∧ parse_bytes 7 (List.replicate 18 0) = some (Except.error ()) :=
  ⟨(parse_bytes_total 6 (List.replicate 18 0) (by decide)).1,
   (parse_bytes_total 7 (List.replicate 18 0) (by decide)).2.2 (by decide) (by decide)⟩

/-- C10: the decoded address depends only on the first `len` bytes of the
buffer: for `len` 6 or 18 and two receive buffers (length at least 18) that
agree on bytes `0..len`, `parse_bytes len` returns the same result, so stale
bytes beyond index `len` left from a previous datagram never influence the
decoded peer address. -/
theorem parse_bytes_prefix_only (len : Nat) (b1 b2 : List Nat)
    (hlen : len = 6 ∨ len = 18) (h1 : 18 ≤ b1.length) (h2 : 18 ≤ b2.length)
    (hag : ∀ i, i < len → b1.getD i 0 = b2.getD i 0) :
    parse_bytes len b1 = parse_bytes len b2 := by
  have e : ∀ i, b1.getD i 0 = b2.getD i 0 → b1[i]?.getD 0 = b2[i]?.getD 0 := by
    intro i hh
    simpa [List.getD] using hh
  rcases hlen with rfl | rfl
  · simp [parse_bytes, show 6 ≤ b1.length by omega, show 6 ≤ b2.length by omega,
      e 0 (hag 0 (by omega)), e 1 (hag 1 (by omega)), e 2 (hag 2 (by omega)),
      e 3 (hag 3 (by omega)), e 4 (hag 4 (by omega)), e 5 (hag 5 (by omega))]
  · have ht : b1.take 16 = b2.take 16 := by
      apply List.ext_getElem
      · rw [List.length_take, List.length_take]
        omega
      · intro i hi1 hi2
        rw [List.getElem_take, List.getElem_take]
        have hlt : i < 16 := by
          rw [List.length_take] at hi1
          omega
        have := hag i (by omega)
        rwa [List.getD_eq_getElem b1 0 (by omega), List.getD_eq_getElem b2 0 (by omega)]
          at this
    simp [parse_bytes, h1, h2, ht, e 16 (hag 16 (by omega)), e 17 (hag 17 (by omega))]

/-- C10 (witness): a 6-byte datagram decoded from the fresh buffer and from a
buffer whose trailing twelve bytes still hold stale data gives the same
address. -/
theorem parse_bytes_prefix_only_witness :
    parse_bytes 6 ex_buff
      = parse_bytes 6 [10, 0, 0, 5, 15, 160, 9, 9, 9, 9, 9, 9, 9, 9, 9, 9, 9, 9] :=
  parse_bytes_prefix_only 6 ex_buff [10, 0, 0, 5, 15, 160, 9, 9, 9, 9, 9, 9, 9, 9, 9, 9, 9, 9]
    (Or.inl rfl) (by decide) (by decide) (by decide)

/-! ## Helper lemmas about the receive loop -/

/-- Overwriting a prefix of the receive buffer does not change its length. -/
lemma write_slice_length (buff src : List Nat) (h : src.length ≤ buff.length) :
    (write_slice buff 0 src).length = buff.length := by
  simp [write_slice]
  omega

/-- The buffer obtained by receiving a datagram into an 18-byte buffer again
has 18 bytes. -/
lemma recv_buffer_length (buff data : List Nat) (h : 18 ≤ buff.length) :
    18 ≤ (write_slice buff 0 (data.take (min data.length buff.length))).length := by
  rw [write_slice_length]
  · exact h
  · simp

/-- A loop iteration on a buffer of at least 18 bytes never panics. -/
lemma loop_step_ne_panicked (connect : SocketAddr → Except Nat Nat) (my : SocketAddr)
    (n : Nat) (buff : List Nat) (h : 18 ≤ buff.length) :
    loop_step connect my n buff ≠ StepResult.panicked := by
  cases hp : parse_bytes n buff with
  | none => exact absurd hp (parse_bytes_ne_none n buff h)
  | some v =>
      cases v with
      | error e => simp [loop_step, hp]
      | ok s =>
          simp only [loop_step, hp]
          split <;> simp

/-- A loop iteration dispatches only to peers distinct from the advertised
address. -/
lemma loop_step_dispatched_ne (connect : SocketAddr → Except Nat Nat) (my : SocketAddr)
    (n : Nat) (buff : List Nat) (s : SocketAddr) (r : Except Nat Nat)
    (h : loop_step connect my n buff = StepResult.dispatched s r) : s ≠ my := by
  unfold loop_step at h
  split at h
  next => cases h
  next => cases h
  next s2 heq =>
    split at h
    next => cases h
    next hne2 =>
      injection h with h1 h2
      subst h1
      exact hne2

/-- The receive loop never emits a dispatch whose peer is the advertised
address. -/
lemma loop_go_no_self (connect : SocketAddr → Except Nat Nat) (my : SocketAddr) :
    ∀ (events : List RecvEvent) (buff : List Nat) (r : Except Nat Nat),
      StepResult.dispatched my r ∉ (loop_go connect my buff events).1 := by
  intro events
  induction events with
  | nil => intro buff r; simp [loop_go]
  | cons ev rest ih =>
      intro buff r
      cases ev with
      | ioError e => simp [loop_go]
      | datagram data =>
          rcases hstep : loop_step connect my (min data.length buff.length)
              (write_slice buff 0 (data.take (min data.length buff.length)))
            with l | _ | ⟨s, res⟩ | _
          · simp only [loop_go, hstep, List.mem_cons]
            rintro (heq | hmem)
            · cases heq
            · exact ih _ r hmem
          · simp only [loop_go, hstep, List.mem_cons]
            rintro (heq | hmem)
            · cases heq
            · exact ih _ r hmem
          · have hsne : s ≠ my :=
              loop_step_dispatched_ne connect my _ _ s res hstep
            simp only [loop_go, hstep, List.mem_cons]
            rintro (heq | hmem)
            · injection heq with h1 h2
              exact hsne h1.symm
            · exact ih _ r hmem
          · simp [loop_go, hstep]

/-- On an 18-byte-or-larger buffer, a loop fed only datagrams keeps running:
it never exits, whatever the datagrams contain. -/
lemma loop_go_running (connect : SocketAddr → Except Nat Nat) (my : SocketAddr) :
    ∀ (events : List RecvEvent) (buff : List Nat), 18 ≤ buff.length →
      (∀ ev ∈ events, ∀ e, ev ≠ RecvEvent.ioError e) →
      (loop_go connect my buff events).2 = LoopExit.running := by
  intro events
  induction events with
  | nil => intro buff _ _; rfl
  | cons ev rest ih =>
      intro buff hb hne
      cases ev with
      | ioError e => exact absurd rfl (hne _ (by simp) e)
      | datagram data =>
          have hb2 := recv_buffer_length buff data hb
          have hrest : ∀ ev ∈ rest, ∀ e, ev ≠ RecvEvent.ioError e :=
            fun ev hm => hne ev (by simp [hm])
          rcases hstep : loop_step connect my (min data.length buff.length)
              (write_slice buff 0 (data.take (min data.length buff.length)))
            with l | _ | ⟨s, res⟩ | _
          · simp only [loop_go, hstep]
            exact ih _ hb2 hrest
          · simp only [loop_go, hstep]
            exact ih _ hb2 hrest
          · simp only [loop_go, hstep]
            exact ih _ hb2 hrest
          · exact absurd hstep (loop_step_ne_panicked connect my _ _ hb2)

/-! ## C5: self-filtering -/

/-- C5: when the received datagram decodes to the advertised address `my`,
the iteration is a self-echo skip: the dispatcher is never invoked — no TCP
connect is attempted and the callback is not called for that datagram — and,
over a whole run, the loop never emits a dispatch for the advertised
address. -/
theorem self_filtering (connect : SocketAddr → Except Nat Nat) (my : SocketAddr)
    (bytes : Nat) (buff : List Nat)
    (h : parse_bytes bytes buff = some (Except.ok my)) :
    loop_step connect my bytes buff = StepResult.selfEcho
    ∧ (∀ s r, loop_step connect my bytes buff ≠ StepResult.dispatched s r)
    ∧ (∀ events r,
        StepResult.dispatched my r ∉ (handle_broadcast_message connect my events).1) := by
  have h1 : loop_step connect my bytes buff = StepResult.selfEcho := by
    simp [loop_step, h]
  refine ⟨h1, ?_, ?_⟩
  · intro s r
    rw [h1]
    intro hh
    cases hh
  · intro events r
    exact loop_go_no_self connect my events (List.replicate 18 0) r

/-- C5 (witness): a second announcer whose own announcement echoes back —
`ex_buff` decodes to `ex_advert` itself — skips it as a self-echo. -/
theorem self_filtering_witness :
    loop_step ex_connect ex_advert 6 ex_buff = StepResult.selfEcho :=
  (self_filtering ex_connect ex_advert 6 ex_buff (by decide)).1

/-! ## C6: malformed packets are dropped, only receive errors terminate -/

/-- C6: the discovery loop never terminates on datagrams — malformed ones
(received length neither 6 nor 18) are dropped with the loop continuing to
the next iteration and no callback — while a receive-level I/O error makes
the loop exit immediately and is propagated to the caller as the result of
`run`. -/
theorem loop_error_handling (connect : SocketAddr → Except Nat Nat) (my : SocketAddr) :
    (∀ events, (∀ ev ∈ events, ∀ e, ev ≠ RecvEvent.ioError e) →
        (handle_broadcast_message connect my events).2 = LoopExit.running)
    ∧ (∀ buff data rest,
        min data.length buff.length ≠ 6 → min data.length buff.length ≠ 18 →
        loop_go connect my buff (RecvEvent.datagram data :: rest)
          = (StepResult.dropped (min data.length buff.length)
               :: (loop_go connect my
                     (write_slice buff 0 (data.take (min data.length buff.length))) rest).1,
             (loop_go connect my
                 (write_slice buff 0 (data.take (min data.length buff.length))) rest).2))
    ∧ (∀ e rest, handle_broadcast_message connect my (RecvEvent.ioError e :: rest)
        = ([], LoopExit.errored e))
    ∧ (∀ method events e,
        (handle_broadcast_message connect my events).2 = LoopExit.errored e →
        run_result connect my method events = some (Except.error e)) := by
  refine ⟨?_, ?_, ?_, ?_⟩
  · intro events hne
    exact loop_go_running connect my events (List.replicate 18 0) (by simp) hne
  · intro buff data rest h6 h18
    have hstep : loop_step connect my (min data.length buff.length)
        (write_slice buff 0 (data.take (min data.length buff.length)))
        = StepResult.dropped (min data.length buff.length) := by
      rw [loop_step, parse_bytes, if_neg h6, if_neg h18]
    simp only [loop_go, hstep]
  · intro e rest
    rfl
  · intro method events e he
    rw [run_result, he]

/-- C6 (witness): a 3-byte datagram is dropped and the loop keeps running,
while a receive error with code 5 terminates the loop and `run` returns that
error. -/
theorem loop_error_handling_witness :
    (handle_broadcast_message ex_connect ex_my [RecvEvent.datagram [1, 2, 3]]).2
        = LoopExit.running
    ∧ handle_broadcast_message ex_connect ex_my [RecvEvent.ioError 5]
        = ([], LoopExit.errored 5)
    ∧ run_result ex_connect ex_my (Method.Broadcast ex_bcast) [RecvEvent.ioError 5]
        = some (Except.error 5) :=
  ⟨(loop_error_handling ex_connect ex_my).1 [RecvEvent.datagram [1, 2, 3]]
     (by intro ev hm e; rcases List.mem_singleton.mp hm with rfl; simp),
   (loop_error_handling ex_connect ex_my).2.2.1 5 [],
   (loop_error_handling ex_connect ex_my).2.2.2 (Method.Broadcast ex_bcast)
     [RecvEvent.ioError 5] 5 (by decide)⟩

/-! ## C7: one dispatch per discovered peer, outcome always delivered -/

/-- C7: when the datagram decodes to a peer `s` distinct from the advertised
address, the iteration performs exactly one TCP connect to `s` and invokes
the callback exactly once with the connection outcome `connect s` — whether
that outcome is an established stream or a connection error, it is delivered,
never swallowed, and never retried. -/
theorem dispatch_once_with_outcome (connect : SocketAddr → Except Nat Nat)
    (my s : SocketAddr) (bytes : Nat) (buff : List Nat)
    (hp : parse_bytes bytes buff = some (Except.ok s)) (hne : s ≠ my) :
    loop_step connect my bytes buff = StepResult.dispatched s (connect s) := by
  simp [loop_step, hp, hne]

/-- C7 (witness): `ex_buff` decodes to peer `10.0.0.5:4000`, every connect
attempt fails with error 111, and the callback receives exactly that
error. -/
theorem dispatch_once_with_outcome_witness :
    loop_step ex_connect ex_my 6 ex_buff
      = StepResult.dispatched ex_advert (Except.error 111) :=
  dispatch_once_with_outcome ex_connect ex_my ex_advert 6 ex_buff (by decide) (by decide)

/-! ## C3: multicast socket family -/

/-- C3 (evaluation at the failing input): for the IPv4 multicast target
`224.0.0.1:1337` the setup still opens both sockets with `Domain::ipv6()` —
the receive socket handed to the loop is an IPv6-family socket even though
the target is an IPv4 multicast group, so the socket domain does not match
the target's IP family. -/
theorem multicast_v4_domain_mismatch :
    (transport_setup ex_advert (Method.Multicast ex_group_v4)).sockets.map
        SocketConfig.domain = [Domain.ipv6, Domain.ipv6]
    ∧ ex_group_v4.ip = IpAddr.V4 ⟨224, 0, 0, 1⟩
    ∧ Domain.ipv6 ≠ Domain.ipv4 := by
  refine ⟨by decide, by decide, by decide⟩

/-! ## C4: broadcast transport setup -/

/-- C4 (counterexample): for the broadcast target `192.168.0.255:1337` the
socket is bound to the target address itself, which is not the wildcard
address `0.0.0.0` with the target's port as the claim states. -/
theorem broadcast_bind_counterexample :
    (transport_setup ex_advert (Method.Broadcast ex_bcast)).sockets.map
        SocketConfig.bind_addr = [ex_bcast]
    ∧ ex_bcast ≠ SocketAddr.V4 ⟨⟨0, 0, 0, 0⟩, 1337⟩ := by
  refine ⟨by decide, by decide⟩

/-- C4 (amended): for every Broadcast target, the transport setup opens one
IPv4 UDP socket with address reuse and the broadcast option enabled, binds it
to the target address itself (not to the wildcard address), sends the encoded
advertised address to the target on that socket, and hands the same socket to
the receive loop. -/
theorem broadcast_bind_amended (connect_to addr : SocketAddr) :
    (transport_setup connect_to (Method.Broadcast addr)).sockets.map
        SocketConfig.bind_addr = [addr]
    ∧ (transport_setup connect_to (Method.Broadcast addr)).sockets.map
        SocketConfig.domain = [Domain.ipv4]
    ∧ (transport_setup connect_to (Method.Broadcast addr)).sockets.map
        SocketConfig.reuse_address = [true]
    ∧ (transport_setup connect_to (Method.Broadcast addr)).sockets.map
        SocketConfig.broadcast = [true]
    ∧ (transport_setup connect_to (Method.Broadcast addr)).sends
        = [⟨(transport_setup connect_to (Method.Broadcast addr)).loop_socket,
            to_bytes connect_to, addr⟩] := by
  refine ⟨rfl, rfl, rfl, rfl, rfl⟩

end Autodiscover
